import Mathlib

/-!
Shallow embedding of `src/index.py` (`create_teacher_ranking_excel`).

The script reads every sheet of an Excel workbook with `header=None`,
treats row 0 of each sheet as teacher names, sanitizes blank names to
`Unnamed_Teacher_{i}`, collects the non-NaN cells of each column into a
per-teacher score list merged across sheets by name, computes per-teacher
means, sorts descending, assigns 1-based ranks, and writes the table.

Modelling choices:
* a cell is `Option CellVal`; `none` is NaN (an empty cell), a present
  cell is numeric (pandas float, modelled as `ℚ`) or text;
* a sheet is the rectangular pandas grid, given as a list of rows; a row
  shorter than the widest one is padded with NaN (`cellAt`);
* the aggregation dictionary is an insertion-ordered association list;
* the run result is `failure` (the function returns `False`),
  `success rows` (returns `True` after writing `rows`), or `crash`
  (an exception escapes the function: `scores_only_df[name]` yields a
  two-column DataFrame when `name` labels two columns, so `.tolist()`
  raises `AttributeError`; `sum` over a list containing text raises
  `TypeError`; neither is caught);
* file reading is the `Except ReadErr Workbook` argument: `.error`
  stands for `FileNotFoundError` or any other parse failure;
* the final `to_excel` write is assumed to succeed; a `failure` or
  `crash` result means the write is never reached, so no output file
  exists.
-/

/-- A present (non-NaN) spreadsheet cell value: numeric or text. -/
inductive CellVal where
  | num (q : ℚ)
  | text (s : String)
deriving DecidableEq

/-- A cell of the grid; `none` models NaN (an empty cell). -/
abbrev Cell := Option CellVal

/-- One sheet as pandas loads it with `header=None`: a grid of rows. -/
abbrev Sheet := List (List Cell)

/-- All sheets of the workbook, in workbook order. -/
abbrev Workbook := List Sheet

/-- Number of columns of the sheet's DataFrame (width of the widest row). -/
def ncols (s : Sheet) : Nat := s.foldr (fun r m => max r.length m) 0

/-- Cell of row `r` at column `j`; a missing cell is NaN. -/
def cellAt (r : List Cell) (j : Nat) : Cell := r.getD j none

/-- `df.iloc[0]` at column `i`: the candidate teacher name of column `i`. -/
def nameCellAt (s : Sheet) (i : Nat) : Cell := cellAt (s.headD []) i

/-- Python's `str.strip()` on a character list: drop whitespace from
both ends. -/
def stripChars (l : List Char) : List Char :=
  ((l.dropWhile Char.isWhitespace).reverse.dropWhile Char.isWhitespace).reverse

/-- Python's `str.strip()`. -/
def pyStrip (s : String) : String := ⟨stripChars s.data⟩

/-- Negation of the test `pd.notna(name) and str(name).strip() != ''`
(line 51): NaN is blank, text is blank when it strips to empty, and a
numeric cell is never blank (`str(x).strip()` of a float is non-empty). -/
def isBlankName (c : Cell) : Bool :=
  match c with
  | none => true
  | some (.num _) => false
  | some (.text s) => pyStrip s = ""

/-- The synthetic name `Unnamed_Teacher_{i}` (a Python f-string) built
for column `i`. -/
def placeholder (i : Nat) : CellVal := .text ("Unnamed_Teacher_" ++ Nat.repr i)

/-- Line 51: keep the name verbatim when it is non-NaN and does not trim
to empty, otherwise substitute the positional placeholder. -/
def sanitizeName (i : Nat) (c : Cell) : CellVal :=
  match c with
  | none => placeholder i
  | some (.num q) => .num q
  | some (.text s) => if pyStrip s = "" then placeholder i else .text s

/-- The sanitized name of column `i` of sheet `s`. -/
def cleanedNameAt (s : Sheet) (i : Nat) : CellVal := sanitizeName i (nameCellAt s i)

/-- Lines 50–53: `cleaned_teacher_names`, one sanitized name per column. -/
def cleaned_teacher_names (s : Sheet) : List CellVal :=
  (List.range (ncols s)).map (fun i => cleanedNameAt s i)

/-- Lines 43 and 61: the score region of column `j` (all rows after
row 0), with NaN cells dropped (`.iloc[1:]`, `.dropna().tolist()`). -/
def current_teacher_scores (s : Sheet) (j : Nat) : List CellVal :=
  (s.drop 1).filterMap (fun r => cellAt r j)

/-- Whether a present cell is numeric. Python can sum a list of floats;
`sum` raises `TypeError` on a text element. -/
def isNumCell : CellVal → Bool
  | .num _ => true
  | .text _ => false

/-- Lines 39–61 for one non-empty sheet: the `(name, column scores)`
pairs contributed by its columns, in column order. `scores_only_df[name]`
returns a Series only when exactly one column is labelled `name`; with a
duplicated label it returns a DataFrame and `.tolist()` raises an
uncaught `AttributeError`, modelled as `.error`. -/
def processSheet (s : Sheet) : Except Unit (List (CellVal × List CellVal)) :=
  if (cleaned_teacher_names s).Nodup then
    .ok ((List.range (ncols s)).map
      (fun j => (cleanedNameAt s j, current_teacher_scores s j)))
  else .error ()

/-- Lines 64–66: extend the score list of `k` by `v`, creating the entry
at the end of the dictionary when `k` is new (Python dicts keep
insertion order). -/
def addScores (m : List (CellVal × List CellVal)) (k : CellVal) (v : List CellVal) :
    List (CellVal × List CellVal) :=
  match m with
  | [] => [(k, v)]
  | e :: rest => if e.1 = k then (e.1, e.2 ++ v) :: rest else e :: addScores rest k v

/-- `df.empty` (line 32): no rows or no columns. -/
def sheetEmpty (s : Sheet) : Bool := s.isEmpty || ncols s == 0

/-- Lines 31–66: fold every sheet into the dictionary
`all_teachers_scores`, skipping empty sheets, aborting on the
duplicated-label crash. -/
def processSheets : Workbook → List (CellVal × List CellVal) →
    Except Unit (List (CellVal × List CellVal))
  | [], m => .ok m
  | s :: rest, m =>
    if sheetEmpty s then processSheets rest m
    else
      match processSheet s with
      | .error e => .error e
      | .ok es => processSheets rest (es.foldl (fun m e => addScores m e.1 e.2) m)

/-- The numeric values of a score list, or `none` when some element is
text (in which case Python's `sum` raises `TypeError`). -/
def numsOf : List CellVal → Option (List ℚ)
  | [] => some []
  | .num q :: rest => (numsOf rest).map (fun l => q :: l)
  | .text _ :: _ => none

/-- Lines 75–79: `sum(scores) / len(scores)` when the list is non-empty,
`0` otherwise; `none` models the uncaught `TypeError` on text. -/
def teacherMean (scores : List CellVal) : Option ℚ :=
  if scores.isEmpty then some 0
  else
    match numsOf scores with
    | some qs => some (qs.sum / (qs.length : ℚ))
    | none => none

/-- Lines 73–79: the `teacher_avg_scores` rows, in dictionary order. -/
def teacher_avg_scores : List (CellVal × List CellVal) → Option (List (CellVal × ℚ))
  | [] => some []
  | e :: rest =>
    match teacherMean e.2 with
    | none => none
    | some q => (teacher_avg_scores rest).map (fun l => (e.1, q) :: l)

/-- Insert into a list already sorted by descending mean, after every
entry with a mean at least as large. -/
def insertDesc (x : CellVal × ℚ) : List (CellVal × ℚ) → List (CellVal × ℚ)
  | [] => [x]
  | y :: ys => if x.2 ≤ y.2 then y :: insertDesc x ys else x :: y :: ys

/-- Line 85: `sort_values` on the mean column with `ascending=False`. -/
def sortDesc : List (CellVal × ℚ) → List (CellVal × ℚ)
  | [] => []
  | x :: xs => insertDesc x (sortDesc xs)

/-- One row of the output table `rating_df`. -/
structure RankingRow where
  teacher : CellVal
  mean : ℚ
  rank : Nat
deriving DecidableEq

/-- Line 88: the rank column is the 0-based row index plus 1; here the
first remaining row receives rank `k`. -/
def rankFrom (k : Nat) : List (CellVal × ℚ) → List RankingRow
  | [] => []
  | x :: xs => ⟨x.1, x.2, k⟩ :: rankFrom (k + 1) xs

/-- Lines 82–88: the sorted, ranked output table. -/
def rating_df (avgs : List (CellVal × ℚ)) : List RankingRow :=
  rankFrom 1 (sortDesc avgs)

/-- Why reading the input workbook failed (lines 21–26). -/
inductive ReadErr where
  | fileNotFound
  | parseError
deriving DecidableEq

/-- Observable outcome of a call: `False` returned, `True` returned with
the written table, or an uncaught exception. -/
inductive RunResult where
  | failure
  | success (rows : List RankingRow)
  | crash
deriving DecidableEq

/-- The whole function `create_teacher_ranking_excel` (lines 3–97) on an
already-attempted read of the input workbook. -/
def create_teacher_ranking_excel (input : Except ReadErr Workbook) : RunResult :=
  match input with
  | .error _ => .failure
  | .ok wb =>
    match processSheets wb [] with
    | .error _ => .crash
    | .ok m =>
      if m.isEmpty then .failure
      else
        match teacher_avg_scores m with
        | none => .crash
        | some avgs => .success (rating_df avgs)

/-! Observations on the aggregation dictionary. -/

/-- First-match lookup in the association list. -/
def lookupS (m : List (CellVal × List CellVal)) (t : CellVal) : Option (List CellVal) :=
  match m with
  | [] => none
  | e :: rest => if e.1 = t then some e.2 else lookupS rest t

/-- The score list recorded for `t`, empty when `t` is absent. -/
def valueOf (m : List (CellVal × List CellVal)) (t : CellVal) : List CellVal :=
  (lookupS m t).getD []

/-- Scores that a list of per-column entries contributes to teacher `t`,
in column order. -/
def entriesContrib (es : List (CellVal × List CellVal)) (t : CellVal) : List CellVal :=
  match es with
  | [] => []
  | e :: rest => (if e.1 = t then e.2 else []) ++ entriesContrib rest t

/-- Scores one sheet contributes to teacher `t` (none when the sheet
crashes the script). -/
def sheetContrib (s : Sheet) (t : CellVal) : List CellVal :=
  match processSheet s with
  | .error _ => []
  | .ok es => entriesContrib es t

/-- Scores the whole workbook contributes to teacher `t`, in
sheet-then-row order, skipping empty sheets. -/
def wbContrib : Workbook → CellVal → List CellVal
  | [], _ => []
  | s :: rest, t => (if sheetEmpty s then [] else sheetContrib s t) ++ wbContrib rest t

/-- All sanitized names the aggregation loop encounters, in encounter
order. -/
def allSheetNames : Workbook → List CellVal
  | [] => []
  | s :: rest => (if sheetEmpty s then [] else cleaned_teacher_names s) ++ allSheetNames rest

/-- The character list of `Nat.repr`. -/
def reprChars (n : Nat) : List Char := Nat.toDigits 10 n

/-! Concrete inputs used by witnesses and counterexamples. -/

/-- One sheet, names `Alice`, `Bob`, scores `[[5, 9], [7, NaN]]`. -/
def wbPair : Workbook :=
  [[[some (.text "Alice"), some (.text "Bob")],
    [some (.num 5), some (.num 9)],
    [some (.num 7), none]]]

/-- Two sheets sharing the name `Alice`. -/
def wbTwoSheets : Workbook :=
  [[[some (.text "Alice"), some (.text "Bob")],
    [some (.num 5), some (.num 9)]],
   [[some (.text "Alice")],
    [some (.num 7)],
    [some (.num 11)]]]

/-- One teacher whose single score cell holds text. -/
def wbTextScore : Workbook := [[[some (.text "T")], [some (.text "abc")]]]

/-- A sheet whose row 0 repeats one non-blank name in two columns. -/
def sheetDupName : Sheet := [[some (.text "Alice"), some (.text "Alice")]]

/-- A workbook whose only sheet repeats a non-blank name. -/
def wbDupName : Workbook :=
  [[[some (.text "A"), some (.text "A")], [some (.num 1), some (.num 2)]]]

/-- A sheet with two blank name cells in row 0. -/
def sheetTwoBlank : Sheet := [[none, some (.text " ")], [some (.num 1), some (.num 2)]]

/-- A sheet whose column 0 name is missing. -/
def sheetBlankA : Sheet := [[none, some (.text "X")], [some (.num 3), some (.num 4)]]

/-- A sheet whose column 0 name is whitespace. -/
def sheetBlankB : Sheet := [[some (.text "  ")], [some (.num 5)]]

/-! Lemmas about the dictionary fold. -/

lemma lookupS_addScores (m : List (CellVal × List CellVal)) (k t : CellVal)
    (v : List CellVal) :
    lookupS (addScores m k v) t =
      if t = k then some (valueOf m t ++ v) else lookupS m t := by
  induction m with
  | nil =>
    by_cases h : t = k
    · simp [addScores, lookupS, valueOf, h]
    · have h' : ¬ k = t := fun hh => h hh.symm
      simp [addScores, lookupS, valueOf, h, h']
  | cons e rest ih =>
    by_cases hek : e.1 = k
    · subst hek
      by_cases het : e.1 = t
      · subst het
        simp [addScores, lookupS, valueOf]
      · have h1 : ¬ t = e.1 := fun hh => het hh.symm
        simp [addScores, lookupS, het, h1]
    · by_cases het : e.1 = t
      · subst het
        simp [addScores, lookupS, hek]
      · have h1 : ¬ t = e.1 := fun hh => het hh.symm
        simp [addScores, lookupS, valueOf, hek, het, ih]

lemma valueOf_addScores (m : List (CellVal × List CellVal)) (k t : CellVal)
    (v : List CellVal) :
    valueOf (addScores m k v) t =
      if t = k then valueOf m t ++ v else valueOf m t := by
  by_cases h : t = k <;> simp [valueOf, lookupS_addScores, h]

lemma valueOf_foldl (es : List (CellVal × List CellVal))
    (m : List (CellVal × List CellVal)) (t : CellVal) :
    valueOf (es.foldl (fun m e => addScores m e.1 e.2) m) t =
      valueOf m t ++ entriesContrib es t := by
  induction es generalizing m with
  | nil => simp [entriesContrib]
  | cons e rest ih =>
    by_cases h : e.1 = t
    · simp [entriesContrib, h, ih, valueOf_addScores, List.append_assoc]
    · have : ¬ t = e.1 := fun hh => h hh.symm
      simp [entriesContrib, h, ih, valueOf_addScores, this]

lemma valueOf_processSheets (wb : Workbook) (m m' : List (CellVal × List CellVal))
    (t : CellVal) (h : processSheets wb m = .ok m') :
    valueOf m' t = valueOf m t ++ wbContrib wb t := by
  induction wb generalizing m with
  | nil =>
    simp [processSheets] at h
    simp [h.symm, wbContrib]
  | cons s rest ih =>
    by_cases hs : sheetEmpty s
    · simp [processSheets, hs] at h
      simp [wbContrib, hs, ih _ h]
    · simp [processSheets, hs] at h
      cases hps : processSheet s with
      | error e => rw [hps] at h; exact absurd h (by simp)
      | ok es =>
        rw [hps] at h
        simp at h
        rw [wbContrib, ih _ h, valueOf_foldl]
        simp [sheetContrib, hps, hs, List.append_assoc]

/-! Lemmas about the keys of the dictionary. -/

lemma map_fst_addScores_of_mem (m : List (CellVal × List CellVal)) (k : CellVal)
    (v : List CellVal) (h : k ∈ m.map Prod.fst) :
    (addScores m k v).map Prod.fst = m.map Prod.fst := by
  induction m with
  | nil => simp at h
  | cons e rest ih =>
    by_cases hek : e.1 = k
    · simp [addScores, hek]
    · have : k ∈ rest.map Prod.fst := by
        rcases List.mem_map.mp h with ⟨p, hp, hpk⟩
        rcases List.mem_cons.mp hp with h1 | h1
        · exact absurd (h1 ▸ hpk) hek
        · exact List.mem_map.mpr ⟨p, h1, hpk⟩
      simp [addScores, hek, ih this]

lemma map_fst_addScores_of_not_mem (m : List (CellVal × List CellVal)) (k : CellVal)
    (v : List CellVal) (h : k ∉ m.map Prod.fst) :
    (addScores m k v).map Prod.fst = m.map Prod.fst ++ [k] := by
  induction m with
  | nil => simp [addScores]
  | cons e rest ih =>
    have hek : ¬ e.1 = k := fun hh => h (by simp [hh])
    have : k ∉ rest.map Prod.fst := fun hh => h (by simp [hh])
    simp [addScores, hek, ih this]

lemma nodup_keys_addScores (m : List (CellVal × List CellVal)) (k : CellVal)
    (v : List CellVal) (h : (m.map Prod.fst).Nodup) :
    ((addScores m k v).map Prod.fst).Nodup := by
  by_cases hk : k ∈ m.map Prod.fst
  · rw [map_fst_addScores_of_mem m k v hk]; exact h
  · rw [map_fst_addScores_of_not_mem m k v hk]
    refine List.Nodup.append h (List.nodup_singleton k) ?_
    intro a ha hb
    rw [List.mem_singleton] at hb
    exact hk (hb ▸ ha)

lemma keys_toFinset_addScores (m : List (CellVal × List CellVal)) (k : CellVal)
    (v : List CellVal) :
    ((addScores m k v).map Prod.fst).toFinset = insert k (m.map Prod.fst).toFinset := by
  by_cases hk : k ∈ m.map Prod.fst
  · rw [map_fst_addScores_of_mem m k v hk]
    have : k ∈ (m.map Prod.fst).toFinset := List.mem_toFinset.mpr hk
    rw [Finset.insert_eq_self.mpr this]
  · rw [map_fst_addScores_of_not_mem m k v hk]
    simp [Finset.insert_eq, Finset.union_comm]

lemma nodup_keys_foldl (es m : List (CellVal × List CellVal))
    (h : (m.map Prod.fst).Nodup) :
    (((es.foldl (fun m e => addScores m e.1 e.2) m)).map Prod.fst).Nodup := by
  induction es generalizing m with
  | nil => exact h
  | cons e rest ih => exact ih _ (nodup_keys_addScores _ _ _ h)

lemma keys_toFinset_foldl (es m : List (CellVal × List CellVal)) :
    ((es.foldl (fun m e => addScores m e.1 e.2) m).map Prod.fst).toFinset =
      (m.map Prod.fst).toFinset ∪ (es.map Prod.fst).toFinset := by
  induction es generalizing m with
  | nil => simp
  | cons e rest ih =>
    rw [List.foldl_cons, ih, keys_toFinset_addScores]
    simp [Finset.insert_union, Finset.union_insert, Finset.insert_eq]
    ac_rfl

lemma nodup_keys_processSheets (wb : Workbook) (m m' : List (CellVal × List CellVal))
    (hnd : (m.map Prod.fst).Nodup) (h : processSheets wb m = .ok m') :
    (m'.map Prod.fst).Nodup := by
  induction wb generalizing m with
  | nil =>
    simp [processSheets] at h
    exact h ▸ hnd
  | cons s rest ih =>
    by_cases hs : sheetEmpty s
    · simp [processSheets, hs] at h
      exact ih _ hnd h
    · simp [processSheets, hs] at h
      cases hps : processSheet s with
      | error e => rw [hps] at h; exact absurd h (by simp)
      | ok es =>
        rw [hps] at h
        simp at h
        exact ih _ (nodup_keys_foldl _ _ hnd) h

lemma keys_processSheet (s : Sheet) (es : List (CellVal × List CellVal))
    (h : processSheet s = .ok es) :
    es.map Prod.fst = cleaned_teacher_names s := by
  by_cases hnd : (cleaned_teacher_names s).Nodup
  · simp [processSheet, hnd] at h
    rw [← h, List.map_map]
    rfl
  · simp [processSheet, hnd] at h

lemma keys_toFinset_processSheets (wb : Workbook) (m m' : List (CellVal × List CellVal))
    (h : processSheets wb m = .ok m') :
    (m'.map Prod.fst).toFinset = (m.map Prod.fst).toFinset ∪ (allSheetNames wb).toFinset := by
  induction wb generalizing m with
  | nil =>
    simp [processSheets] at h
    simp [h.symm, allSheetNames]
  | cons s rest ih =>
    by_cases hs : sheetEmpty s
    · simp [processSheets, hs] at h
      simp [allSheetNames, hs, ih _ h]
    · simp [processSheets, hs] at h
      cases hps : processSheet s with
      | error e => rw [hps] at h; exact absurd h (by simp)
      | ok es =>
        rw [hps] at h
        simp at h
        rw [allSheetNames, ih _ h, keys_toFinset_foldl, keys_processSheet s es hps]
        simp [hs, Finset.union_assoc]

lemma lookupS_eq_of_mem_of_nodup (m : List (CellVal × List CellVal))
    (t : CellVal) (scs : List CellVal)
    (hmem : (t, scs) ∈ m) (hnd : (m.map Prod.fst).Nodup) :
    lookupS m t = some scs := by
  induction m with
  | nil => simp at hmem
  | cons e rest ih =>
    rcases List.mem_cons.mp hmem with h1 | h1
    · rw [← h1]
      simp [lookupS]
    · have het : ¬ e.1 = t := by
        intro hh
        have : t ∈ rest.map Prod.fst := List.mem_map.mpr ⟨(t, scs), h1, rfl⟩
        rw [List.map_cons, List.nodup_cons, hh] at hnd
        exact hnd.1 this
      simp [lookupS, het, ih h1 (List.nodup_cons.mp (by simpa using hnd)).2]

/-! Lemmas about means, sorting and ranking. -/

lemma numsOf_length (l : List CellVal) (qs : List ℚ) (h : numsOf l = some qs) :
    qs.length = l.length := by
  induction l generalizing qs with
  | nil => simp [numsOf] at h; simp [h.symm]
  | cons x rest ih =>
    cases x with
    | num q =>
      simp [numsOf] at h
      rcases h with ⟨l', hl', hq⟩
      simp [hq.symm, ih l' hl']
    | text s => simp [numsOf] at h

lemma teacherMean_eq (scs : List CellVal) (qs : List ℚ) (h : numsOf scs = some qs) :
    teacherMean scs = some (if 0 < qs.length then qs.sum / (qs.length : ℚ) else 0) := by
  cases scs with
  | nil =>
    rw [numsOf] at h
    injection h with h
    subst h
    simp [teacherMean]
  | cons x rest =>
    have hlen : qs.length = (x :: rest).length := numsOf_length _ _ h
    have hpos : 0 < qs.length := by rw [hlen]; simp
    simp [teacherMean, h, hpos]

lemma teacher_avg_scores_length (m : List (CellVal × List CellVal))
    (avgs : List (CellVal × ℚ)) (h : teacher_avg_scores m = some avgs) :
    avgs.length = m.length := by
  induction m generalizing avgs with
  | nil => simp [teacher_avg_scores] at h; simp [h.symm]
  | cons e rest ih =>
    rw [teacher_avg_scores] at h
    cases htm : teacherMean e.2 with
    | none => rw [htm] at h; simp at h
    | some q =>
      rw [htm] at h
      simp at h
      rcases h with ⟨l', hl', hq⟩
      simp [hq.symm, ih l' hl']

lemma teacher_avg_scores_mem (m : List (CellVal × List CellVal))
    (avgs : List (CellVal × ℚ)) (t : CellVal) (scs : List CellVal) (q : ℚ)
    (hmem : (t, scs) ∈ m) (h : teacher_avg_scores m = some avgs)
    (htm : teacherMean scs = some q) :
    (t, q) ∈ avgs := by
  induction m generalizing avgs with
  | nil => simp at hmem
  | cons e rest ih =>
    rw [teacher_avg_scores] at h
    cases htm' : teacherMean e.2 with
    | none => rw [htm'] at h; simp at h
    | some q' =>
      rw [htm'] at h
      simp at h
      rcases h with ⟨l', hl', hq⟩
      rcases List.mem_cons.mp hmem with h1 | h1
      · have he1 : e.1 = t := by rw [← h1]
        have he2 : e.2 = scs := by rw [← h1]
        rw [he2, htm] at htm'
        have : q' = q := by injection htm'.symm
        simp [hq.symm, he1, this]
      · exact hq ▸ List.mem_cons_of_mem _ (ih l' h1 hl')

lemma mem_insertDesc (x y : CellVal × ℚ) (l : List (CellVal × ℚ)) :
    y ∈ insertDesc x l ↔ y = x ∨ y ∈ l := by
  induction l with
  | nil => simp [insertDesc]
  | cons z zs ih =>
    by_cases h : x.2 ≤ z.2
    · simp [insertDesc, h, ih]
      tauto
    · simp [insertDesc, h]

lemma mem_sortDesc (y : CellVal × ℚ) (l : List (CellVal × ℚ)) :
    y ∈ sortDesc l ↔ y ∈ l := by
  induction l with
  | nil => simp [sortDesc]
  | cons x xs ih =>
    simp [sortDesc, mem_insertDesc, ih]

lemma length_insertDesc (x : CellVal × ℚ) (l : List (CellVal × ℚ)) :
    (insertDesc x l).length = l.length + 1 := by
  induction l with
  | nil => simp [insertDesc]
  | cons z zs ih =>
    by_cases h : x.2 ≤ z.2 <;> simp [insertDesc, h, ih]

lemma length_sortDesc (l : List (CellVal × ℚ)) : (sortDesc l).length = l.length := by
  induction l with
  | nil => simp [sortDesc]
  | cons x xs ih => simp [sortDesc, length_insertDesc, ih]

lemma pairwise_insertDesc (x : CellVal × ℚ) (l : List (CellVal × ℚ))
    (h : l.Pairwise (fun a b => b.2 ≤ a.2)) :
    (insertDesc x l).Pairwise (fun a b => b.2 ≤ a.2) := by
  induction l with
  | nil => simp [insertDesc]
  | cons z zs ih =>
    rw [List.pairwise_cons] at h
    by_cases hx : x.2 ≤ z.2
    · rw [insertDesc]
      simp only [hx, if_true]
      rw [List.pairwise_cons]
      constructor
      · intro y hy
        rcases (mem_insertDesc x y zs).mp hy with h1 | h1
        · exact h1 ▸ hx
        · exact h.1 y h1
      · exact ih h.2
    · rw [insertDesc]
      simp only [hx, if_false]
      rw [List.pairwise_cons]
      constructor
      · intro y hy
        rcases List.mem_cons.mp hy with h1 | h1
        · exact h1 ▸ le_of_lt (lt_of_not_le hx)
        · exact le_trans (h.1 y h1) (le_of_lt (lt_of_not_le hx))
      · exact List.pairwise_cons.mpr h

lemma pairwise_sortDesc (l : List (CellVal × ℚ)) :
    (sortDesc l).Pairwise (fun a b => b.2 ≤ a.2) := by
  induction l with
  | nil => simp [sortDesc]
  | cons x xs ih => exact pairwise_insertDesc x _ ih

lemma length_rankFrom (k : Nat) (l : List (CellVal × ℚ)) :
    (rankFrom k l).length = l.length := by
  induction l generalizing k with
  | nil => simp [rankFrom]
  | cons x xs ih => simp [rankFrom, ih]

lemma map_rank_rankFrom (k : Nat) (l : List (CellVal × ℚ)) :
    (rankFrom k l).map RankingRow.rank = List.range' k l.length := by
  induction l generalizing k with
  | nil => simp [rankFrom]
  | cons x xs ih => simp [rankFrom, List.range'_succ, ih]

lemma mem_rankFrom (k : Nat) (l : List (CellVal × ℚ)) (r : RankingRow)
    (h : r ∈ rankFrom k l) : ∃ a ∈ l, r.teacher = a.1 ∧ r.mean = a.2 := by
  induction l generalizing k with
  | nil => simp [rankFrom] at h
  | cons x xs ih =>
    rw [rankFrom] at h
    rcases List.mem_cons.mp h with h1 | h1
    · exact ⟨x, List.mem_cons_self _ _, by simp [h1]⟩
    · rcases ih _ h1 with ⟨a, ha, hr⟩
      exact ⟨a, List.mem_cons_of_mem _ ha, hr⟩

lemma rankFrom_mem_of_mem (k : Nat) (l : List (CellVal × ℚ)) (a : CellVal × ℚ)
    (h : a ∈ l) : ∃ r ∈ rankFrom k l, r.teacher = a.1 ∧ r.mean = a.2 := by
  induction l generalizing k with
  | nil => simp at h
  | cons x xs ih =>
    rcases List.mem_cons.mp h with h1 | h1
    · exact ⟨⟨x.1, x.2, k⟩, by simp [rankFrom], by simp [h1]⟩
    · rcases ih (k + 1) h1 with ⟨r, hr, hra⟩
      exact ⟨r, by simp [rankFrom, hr], hra⟩

/-- Inversion of a successful run. -/
lemma success_inv (wb : Workbook) (rows : List RankingRow)
    (h : create_teacher_ranking_excel (.ok wb) = .success rows) :
    ∃ m avgs, processSheets wb [] = .ok m ∧ m ≠ [] ∧
      teacher_avg_scores m = some avgs ∧ rows = rating_df avgs := by
  rw [create_teacher_ranking_excel] at h
  cases hps : processSheets wb [] with
  | error e => rw [hps] at h; simp at h
  | ok m =>
    rw [hps] at h
    by_cases hm : m.isEmpty
    · simp [hm] at h
    · simp [hm] at h
      cases htas : teacher_avg_scores m with
      | none => rw [htas] at h; simp at h
      | some avgs =>
        rw [htas] at h
        simp at h
        exact ⟨m, avgs, rfl, by simpa using hm, htas, h.symm⟩

/-! Injectivity of the decimal representation used by the placeholders. -/

lemma toDigitsCore_acc (b : Nat) : ∀ (f n : Nat) (ds : List Char),
    Nat.toDigitsCore b f n ds = Nat.toDigitsCore b f n [] ++ ds := by
  intro f
  induction f with
  | zero => intro n ds; simp [Nat.toDigitsCore]
  | succ f ih =>
    intro n ds
    by_cases h : n / b = 0
    · simp [Nat.toDigitsCore, h]
    · simp only [Nat.toDigitsCore, h, if_false]
      rw [ih (n / b) (Nat.digitChar (n % b) :: ds), ih (n / b) [Nat.digitChar (n % b)]]
      simp

lemma toDigitsCore_fuel (b : Nat) (hb : 1 < b) : ∀ (n f₁ f₂ : Nat), n < f₁ → n < f₂ →
    Nat.toDigitsCore b f₁ n [] = Nat.toDigitsCore b f₂ n [] := by
  intro n
  induction n using Nat.strong_induction_on with
  | _ n ih =>
    intro f₁ f₂ h₁ h₂
    cases f₁ with
    | zero => exact absurd h₁ (Nat.not_lt_zero n)
    | succ g₁ =>
      cases f₂ with
      | zero => exact absurd h₂ (Nat.not_lt_zero n)
      | succ g₂ =>
        by_cases h : n / b = 0
        · simp [Nat.toDigitsCore, h]
        · have hnpos : 0 < n := by
            rcases Nat.eq_zero_or_pos n with h0 | h0
            · exact absurd (by simp [h0]) h
            · exact h0
          have hdiv : n / b < n := Nat.div_lt_self hnpos hb
          simp only [Nat.toDigitsCore, h, if_false]
          rw [toDigitsCore_acc b g₁, toDigitsCore_acc b g₂,
            ih (n / b) hdiv g₁ g₂ (by omega) (by omega)]

lemma reprChars_eq (n : Nat) :
    reprChars n =
      (if n < 10 then [] else reprChars (n / 10)) ++ [Nat.digitChar (n % 10)] := by
  by_cases h : n < 10
  · have hdiv : n / 10 = 0 := Nat.div_eq_of_lt h
    simp [reprChars, Nat.toDigits, Nat.toDigitsCore, hdiv, h]
  · have hdiv : ¬ n / 10 = 0 := by
      intro hh
      exact h (by omega)
    have hnpos : 0 < n := by omega
    have hlt : n / 10 < n := Nat.div_lt_self hnpos (by norm_num)
    rw [reprChars, Nat.toDigits]
    simp only [Nat.toDigitsCore, hdiv, if_false, h, if_false]
    rw [toDigitsCore_acc 10 n (n / 10)]
    rw [toDigitsCore_fuel 10 (by norm_num) (n / 10) n (n / 10 + 1) (by omega) (by omega)]
    rfl

lemma reprChars_ne_nil (n : Nat) : reprChars n ≠ [] := by
  rw [reprChars_eq n]
  simp

lemma digitChar_inj_lt (m n : Nat) (hm : m < 10) (hn : n < 10)
    (h : Nat.digitChar m = Nat.digitChar n) : m = n := by
  interval_cases m <;> interval_cases n <;> simp_all [Nat.digitChar]

lemma reprChars_injective : ∀ (m n : Nat), reprChars m = reprChars n → m = n := by
  intro m
  induction m using Nat.strong_induction_on with
  | _ m ih =>
    intro n h
    rw [reprChars_eq m, reprChars_eq n] at h
    have h2 := List.append_inj' h (by simp)
    have hmod : m % 10 = n % 10 := by
      have := h2.2
      simp at this
      exact digitChar_inj_lt _ _ (Nat.mod_lt m (by norm_num)) (Nat.mod_lt n (by norm_num)) this
    by_cases hm : m < 10
    · by_cases hn : n < 10
      · rw [← Nat.mod_eq_of_lt hm, ← Nat.mod_eq_of_lt hn, hmod]
      · have := h2.1
        simp [hm, hn] at this
        exact absurd this (reprChars_ne_nil (n / 10))
    · by_cases hn : n < 10
      · have := h2.1
        simp [hm, hn] at this
        exact absurd this (reprChars_ne_nil (m / 10))
      · have := h2.1
        simp [hm, hn] at this
        have hdivlt : m / 10 < m := Nat.div_lt_self (by omega) (by norm_num)
        have hdiv : m / 10 = n / 10 := ih (m / 10) hdivlt (n / 10) this
        omega

lemma natRepr_injective (m n : Nat) (h : Nat.repr m = Nat.repr n) : m = n := by
  apply reprChars_injective
  have hd : (Nat.repr m).data = (Nat.repr n).data := by rw [h]
  exact hd

lemma placeholder_injective (i j : Nat) (h : placeholder i = placeholder j) : i = j := by
  rw [placeholder, placeholder] at h
  injection h with h
  apply natRepr_injective
  have hd : ("Unnamed_Teacher_" ++ Nat.repr i).data =
      ("Unnamed_Teacher_" ++ Nat.repr j).data := by rw [h]
  rw [String.data_append, String.data_append] at hd
  exact String.ext (List.append_cancel_left hd)

/-! Remaining helper lemmas. -/

lemma tas_mean_isSome (m : List (CellVal × List CellVal)) (avgs : List (CellVal × ℚ))
    (t : CellVal) (scs : List CellVal) (hmem : (t, scs) ∈ m)
    (htas : teacher_avg_scores m = some avgs) : ∃ q, teacherMean scs = some q := by
  induction m generalizing avgs with
  | nil => simp at hmem
  | cons e rest ih =>
    rw [teacher_avg_scores] at htas
    cases htm : teacherMean e.2 with
    | none => rw [htm] at htas; simp at htas
    | some q =>
      rw [htm] at htas
      simp at htas
      rcases htas with ⟨l', hl', _⟩
      rcases List.mem_cons.mp hmem with h1 | h1
      · have : e.2 = scs := by rw [← h1]
        exact ⟨q, this ▸ htm⟩
      · exact ih l' h1 hl'

lemma numsOf_isSome_of_teacherMean (scs : List CellVal) (q : ℚ)
    (h : teacherMean scs = some q) : ∃ qs, numsOf scs = some qs := by
  cases scs with
  | nil => exact ⟨[], rfl⟩
  | cons x rest =>
    rw [teacherMean] at h
    simp at h
    cases hn : numsOf (x :: rest) with
    | none => rw [hn] at h; simp at h
    | some qs => exact ⟨qs, rfl⟩

lemma filterMap_map_some (rows : List (List Cell)) (j : Nat) :
    (rows.filterMap (fun r => cellAt r j)).map some =
      (rows.map (fun r => cellAt r j)).filter (fun c => c.isSome) := by
  induction rows with
  | nil => simp
  | cons r rest ih =>
    cases hc : cellAt r j with
    | none => simp [hc, ih]
    | some v => simp [hc, ih]

lemma pairwise_mean_rankFrom (k : Nat) (l : List (CellVal × ℚ))
    (h : l.Pairwise (fun a b => b.2 ≤ a.2)) :
    (rankFrom k l).Pairwise (fun a b => b.mean ≤ a.mean) := by
  induction l generalizing k with
  | nil => simp [rankFrom]
  | cons x xs ih =>
    rw [List.pairwise_cons] at h
    rw [rankFrom, List.pairwise_cons]
    refine ⟨?_, ih (k + 1) h.2⟩
    intro r hr
    rcases mem_rankFrom _ _ _ hr with ⟨a, ha, _, hmeq⟩
    rw [hmeq]
    exact h.1 a ha

lemma sheetEmpty_eq_false (s : Sheet) (h : 0 < ncols s) : sheetEmpty s = false := by
  have hne : ncols s ≠ 0 := Nat.pos_iff_ne_zero.mp h
  cases s with
  | nil => simp [ncols] at h
  | cons r rest => simp [sheetEmpty, hne]

lemma cleanedNameAt_mem_cleaned (s : Sheet) (i : Nat) (h : i < ncols s) :
    cleanedNameAt s i ∈ cleaned_teacher_names s :=
  List.mem_map.mpr ⟨i, List.mem_range.mpr h, rfl⟩

lemma cleanedNameAt_blank (s : Sheet) (i : Nat)
    (h : isBlankName (nameCellAt s i) = true) : cleanedNameAt s i = placeholder i := by
  rw [cleanedNameAt]
  cases hc : nameCellAt s i with
  | none => rfl
  | some v =>
    cases v with
    | num q => rw [hc] at h; simp [isBlankName] at h
    | text s' =>
      rw [hc] at h
      have h' : pyStrip s' = "" := by simpa [isBlankName] using h
      show (if pyStrip s' = "" then placeholder i else CellVal.text s') = placeholder i
      simp [h']

lemma lookupS_eq_some_of_mem_keys (m : List (CellVal × List CellVal)) (t : CellVal)
    (h : t ∈ m.map Prod.fst) : lookupS m t = some (valueOf m t) := by
  induction m with
  | nil => simp at h
  | cons e rest ih =>
    by_cases het : e.1 = t
    · simp [lookupS, valueOf, het]
    · have : t ∈ rest.map Prod.fst := by
        rcases List.mem_map.mp h with ⟨p, hp, hpk⟩
        rcases List.mem_cons.mp hp with h1 | h1
        · exact absurd (h1 ▸ hpk) het
        · exact List.mem_map.mpr ⟨p, h1, hpk⟩
      have hv : valueOf (e :: rest) t = valueOf rest t := by
        simp [valueOf, lookupS, het]
      show (if e.1 = t then some e.2 else lookupS rest t) = some (valueOf (e :: rest) t)
      rw [if_neg het, hv, ih this]

/-! The claims. -/

/-- C1: for every teacher present in the aggregation map of a run that
writes output, the output holds a row for that teacher whose mean equals
the sum of the teacher's collected scores divided by their count when
the count is positive, and equals 0 when the score list is empty. -/
theorem C1_mean_in_output (wb : Workbook) (m : List (CellVal × List CellVal))
    (t : CellVal) (scs : List CellVal) (rows : List RankingRow)
    (hm : processSheets wb [] = .ok m) (hmem : (t, scs) ∈ m)
    (hrun : create_teacher_ranking_excel (.ok wb) = .success rows) :
    ∃ qs : List ℚ, numsOf scs = some qs ∧ qs.length = scs.length ∧
      ∃ r ∈ rows, r.teacher = t ∧
        r.mean = if 0 < qs.length then qs.sum / (qs.length : ℚ) else 0 := by
  rcases success_inv wb rows hrun with ⟨m', avgs, hm', hne, htas, hrows⟩
  rw [hm] at hm'
  injection hm' with hmm
  subst hmm
  rcases tas_mean_isSome m avgs t scs hmem htas with ⟨q, hq⟩
  rcases numsOf_isSome_of_teacherMean scs q hq with ⟨qs, hqs⟩
  refine ⟨qs, hqs, numsOf_length scs qs hqs, ?_⟩
  have hqval : q = if 0 < qs.length then qs.sum / (qs.length : ℚ) else 0 := by
    have h2 := teacherMean_eq scs qs hqs
    rw [hq] at h2
    injection h2 with h3
  have havg : (t, q) ∈ avgs := teacher_avg_scores_mem m avgs t scs q hmem htas hq
  have hsort : (t, q) ∈ sortDesc avgs := (mem_sortDesc _ _).mpr havg
  rcases rankFrom_mem_of_mem 1 (sortDesc avgs) (t, q) hsort with ⟨r, hr, hrt, hrm⟩
  have hr' : r ∈ rows := by
    rw [hrows, rating_df]
    exact hr
  exact ⟨r, hr', hrt, hrm.trans hqval⟩

/-- Witness for C1 at the spec's example workbook. -/
theorem C1_mean_in_output_witness :
    ∃ qs : List ℚ, numsOf [CellVal.num 5, CellVal.num 7] = some qs ∧
      qs.length = [CellVal.num 5, CellVal.num 7].length ∧
      ∃ r ∈ [(⟨CellVal.text "Bob", 9, 1⟩ : RankingRow), ⟨CellVal.text "Alice", 6, 2⟩],
        r.teacher = CellVal.text "Alice" ∧
        r.mean = if 0 < qs.length then qs.sum / (qs.length : ℚ) else 0 :=
  C1_mean_in_output wbPair
    [(CellVal.text "Alice", [CellVal.num 5, CellVal.num 7]),
     (CellVal.text "Bob", [CellVal.num 9])]
    (CellVal.text "Alice") [CellVal.num 5, CellVal.num 7]
    [⟨CellVal.text "Bob", 9, 1⟩, ⟨CellVal.text "Alice", 6, 2⟩]
    (by simp [wbPair, processSheets, processSheet, cleaned_teacher_names, ncols, cleanedNameAt,
      nameCellAt, cellAt, sanitizeName, isBlankName, pyStrip, stripChars,
      current_teacher_scores, addScores, sheetEmpty, List.range_succ])
    (by simp)
    (by
      simp [wbPair, create_teacher_ranking_excel, processSheets, processSheet,
        cleaned_teacher_names, ncols, cleanedNameAt, nameCellAt, cellAt, sanitizeName,
        isBlankName, pyStrip, stripChars, current_teacher_scores, addScores, sheetEmpty,
        List.range_succ, teacher_avg_scores, teacherMean, numsOf, rating_df, sortDesc, insertDesc]
      norm_num [rankFrom])

/-- C2: in every successful run the rank column is exactly `1..N` and
the mean column is non-increasing as rank increases. -/
theorem C2_ranks_contiguous (wb : Workbook) (rows : List RankingRow)
    (hrun : create_teacher_ranking_excel (.ok wb) = .success rows) :
    rows.map RankingRow.rank = List.range' 1 rows.length ∧
    rows.Pairwise (fun a b => b.mean ≤ a.mean) := by
  rcases success_inv wb rows hrun with ⟨m, avgs, _, _, _, hrows⟩
  subst hrows
  constructor
  · rw [rating_df, map_rank_rankFrom, length_rankFrom]
  · exact pairwise_mean_rankFrom 1 _ (pairwise_sortDesc avgs)

/-- Witness for C2 at the spec's example workbook. -/
theorem C2_ranks_contiguous_witness :
    ([(⟨CellVal.text "Bob", 9, 1⟩ : RankingRow), ⟨CellVal.text "Alice", 6, 2⟩].map
        RankingRow.rank =
      List.range' 1
        [(⟨CellVal.text "Bob", 9, 1⟩ : RankingRow), ⟨CellVal.text "Alice", 6, 2⟩].length) ∧
    [(⟨CellVal.text "Bob", 9, 1⟩ : RankingRow), ⟨CellVal.text "Alice", 6, 2⟩].Pairwise
      (fun a b => b.mean ≤ a.mean) :=
  C2_ranks_contiguous wbPair
    [⟨CellVal.text "Bob", 9, 1⟩, ⟨CellVal.text "Alice", 6, 2⟩]
    (by
      simp [wbPair, create_teacher_ranking_excel, processSheets, processSheet,
        cleaned_teacher_names, ncols, cleanedNameAt, nameCellAt, cellAt, sanitizeName,
        isBlankName, pyStrip, stripChars, current_teacher_scores, addScores, sheetEmpty,
        List.range_succ, teacher_avg_scores, teacherMean, numsOf, rating_df, sortDesc, insertDesc]
      norm_num [rankFrom])

/-- C3: the score list recorded for a teacher equals the concatenation,
in sheet order and within each sheet in column-row order, of the
per-sheet contributions under that name, and the aggregation map has one
entry per name. -/
theorem C3_scores_concat_across_sheets (wb : Workbook)
    (m : List (CellVal × List CellVal)) (t : CellVal) (scs : List CellVal)
    (h : processSheets wb [] = .ok m) (hmem : (t, scs) ∈ m) :
    scs = wbContrib wb t ∧ (m.map Prod.fst).Nodup := by
  have hnd := nodup_keys_processSheets wb [] m (by simp) h
  refine ⟨?_, hnd⟩
  have hl := lookupS_eq_of_mem_of_nodup m t scs hmem hnd
  have hv := valueOf_processSheets wb [] m t h
  rw [valueOf, hl] at hv
  simpa [valueOf, lookupS] using hv

/-- Witness for C3: `Alice` appears in both sheets of `wbTwoSheets`. -/
theorem C3_scores_concat_across_sheets_witness :
    ([CellVal.num 5, CellVal.num 7, CellVal.num 11] =
      wbContrib wbTwoSheets (CellVal.text "Alice")) ∧
    (([(CellVal.text "Alice", [CellVal.num 5, CellVal.num 7, CellVal.num 11]),
        (CellVal.text "Bob", [CellVal.num 9])].map Prod.fst).Nodup) :=
  C3_scores_concat_across_sheets wbTwoSheets
    [(CellVal.text "Alice", [CellVal.num 5, CellVal.num 7, CellVal.num 11]),
     (CellVal.text "Bob", [CellVal.num 9])]
    (CellVal.text "Alice") [CellVal.num 5, CellVal.num 7, CellVal.num 11]
    (by simp [wbTwoSheets, processSheets, processSheet, cleaned_teacher_names, ncols,
      cleanedNameAt, nameCellAt, cellAt, sanitizeName, isBlankName, pyStrip, stripChars,
      current_teacher_scores, addScores, sheetEmpty, List.range_succ])
    (by simp)

/-- C6: when the aggregation map is empty after all sheets, the function
returns the failure indicator and never reaches the output write. -/
theorem C6_no_data_failure (wb : Workbook) (h : processSheets wb [] = .ok []) :
    create_teacher_ranking_excel (.ok wb) = .failure := by
  simp [create_teacher_ranking_excel, h]

/-- Witness for C6: a workbook holding one empty sheet. -/
theorem C6_no_data_failure_witness :
    processSheets [([] : Sheet)] [] = .ok [] ∧
    create_teacher_ranking_excel (.ok [([] : Sheet)]) = .failure :=
  ⟨by simp [processSheets, sheetEmpty],
   C6_no_data_failure [([] : Sheet)] (by simp [processSheets, sheetEmpty])⟩

/-- C7: a read failure of either kind makes the function return the
failure indicator at once; no aggregation happens and no output row is
ever produced. -/
theorem C7_read_error_failure (e : ReadErr) :
    create_teacher_ranking_excel (.error e) = .failure := rfl

/-- C9: a sheet whose row 0 repeats one non-blank name in two columns
makes the function raise an uncaught exception instead of returning the
boolean indicator. -/
theorem C9_duplicate_name_crash :
    create_teacher_ranking_excel (.ok wbDupName) = .crash := by
  simp [wbDupName, create_teacher_ranking_excel, processSheets, processSheet,
    cleaned_teacher_names, ncols, cleanedNameAt, nameCellAt, cellAt, sanitizeName, isBlankName,
    pyStrip, stripChars, sheetEmpty, List.range_succ]

/-- Counterexample to C4 as stated: the text cell `"abc"` is present but
not numeric-coercible, yet the run appends it to the teacher's score
list, because `dropna` removes only NaN cells. -/
theorem C4_counterexample :
    processSheets wbTextScore [] = .ok [(CellVal.text "T", [CellVal.text "abc"])] ∧
    isNumCell (CellVal.text "abc") = false := by
  constructor
  · simp [wbTextScore, processSheets, processSheet, cleaned_teacher_names, ncols, cleanedNameAt,
      nameCellAt, cellAt, sanitizeName, isBlankName, pyStrip, stripChars,
      current_teacher_scores, addScores, sheetEmpty, List.range_succ]
  · rfl

/-- C4 (amended): a cell of the score region is appended to the owning
teacher's list iff it is present (non-NaN), whether numeric-coercible or
not, and the appended cells keep row order: each entry's scores are
exactly the present cells of its column. -/
theorem C4_amended_present_cells_appended (s : Sheet)
    (es : List (CellVal × List CellVal)) (t : CellVal) (scs : List CellVal)
    (hps : processSheet s = .ok es) (hmem : (t, scs) ∈ es) :
    ∃ j, j < ncols s ∧ t = cleanedNameAt s j ∧
      scs.map some = ((s.drop 1).map (fun r => cellAt r j)).filter (fun c => c.isSome) := by
  by_cases hnd : (cleaned_teacher_names s).Nodup
  · rw [processSheet, if_pos hnd] at hps
    injection hps with hps
    rw [← hps] at hmem
    rcases List.mem_map.mp hmem with ⟨j, hj, hpair⟩
    have h1 : cleanedNameAt s j = t := congrArg Prod.fst hpair
    have h2 : current_teacher_scores s j = scs := congrArg Prod.snd hpair
    refine ⟨j, List.mem_range.mp hj, h1.symm, ?_⟩
    rw [← h2]
    exact filterMap_map_some (s.drop 1) j
  · rw [processSheet, if_neg hnd] at hps
    exact absurd hps (by simp)

/-- Witness for C4 (amended) at the single-column text sheet. -/
theorem C4_amended_present_cells_appended_witness :
    ∃ j, j < ncols [[some (CellVal.text "T")], [some (CellVal.text "abc")]] ∧
      CellVal.text "T" = cleanedNameAt [[some (CellVal.text "T")], [some (CellVal.text "abc")]] j ∧
      [CellVal.text "abc"].map some =
        (([[some (CellVal.text "T")], [some (CellVal.text "abc")]].drop 1).map
          (fun r => cellAt r j)).filter (fun c => c.isSome) :=
  C4_amended_present_cells_appended [[some (CellVal.text "T")], [some (CellVal.text "abc")]]
    [(CellVal.text "T", [CellVal.text "abc"])] (CellVal.text "T") [CellVal.text "abc"]
    (by simp [processSheet, cleaned_teacher_names, ncols, cleanedNameAt, nameCellAt, cellAt,
      sanitizeName, isBlankName, pyStrip, stripChars, current_teacher_scores, List.range_succ])
    (by simp)

/-- Counterexample to C5 as stated: both columns of `sheetDupName` carry
the same non-blank name, so two distinct columns of one sheet map to the
same sanitized key. -/
theorem C5_counterexample :
    cleaned_teacher_names sheetDupName = [CellVal.text "Alice", CellVal.text "Alice"] ∧
    ¬ (cleaned_teacher_names sheetDupName).Nodup := by
  have h : cleaned_teacher_names sheetDupName =
      [CellVal.text "Alice", CellVal.text "Alice"] := by
    simp [sheetDupName, cleaned_teacher_names, ncols, cleanedNameAt, nameCellAt, cellAt,
      sanitizeName, isBlankName, pyStrip, stripChars, List.range_succ]
  refine ⟨h, ?_⟩
  rw [h]
  simp

/-- C5 (amended): a blank or missing row-0 name at column `i` is replaced
by the placeholder encoding `i`; two blank columns therefore never
collide; a non-blank trimmed-non-empty name is accepted verbatim (so two
columns sharing one non-blank name may still collide). -/
theorem C5_amended_blank_names (s : Sheet) (i j : Nat) (v : CellVal)
    (hij : i ≠ j)
    (hbi : isBlankName (nameCellAt s i) = true)
    (hbj : isBlankName (nameCellAt s j) = true)
    (hv : isBlankName (some v) = false) :
    cleanedNameAt s i = placeholder i ∧
    cleanedNameAt s i ≠ cleanedNameAt s j ∧
    sanitizeName i (some v) = v := by
  have h1 := cleanedNameAt_blank s i hbi
  have h2 := cleanedNameAt_blank s j hbj
  refine ⟨h1, ?_, ?_⟩
  · rw [h1, h2]
    intro h
    exact hij (placeholder_injective i j h)
  · cases v with
    | num q => rfl
    | text s' =>
      have h' : ¬ pyStrip s' = "" := by simpa [isBlankName] using hv
      show (if pyStrip s' = "" then placeholder i else CellVal.text s') = CellVal.text s'
      simp [h']

/-- Witness for C5 (amended) at a sheet with two blank name cells. -/
theorem C5_amended_blank_names_witness :
    cleanedNameAt sheetTwoBlank 0 = placeholder 0 ∧
    cleanedNameAt sheetTwoBlank 0 ≠ cleanedNameAt sheetTwoBlank 1 ∧
    sanitizeName 0 (some (CellVal.text "Alice")) = CellVal.text "Alice" :=
  C5_amended_blank_names sheetTwoBlank 0 1 (CellVal.text "Alice") (by decide)
    (by simp [sheetTwoBlank, nameCellAt, cellAt, isBlankName])
    (by simp [sheetTwoBlank, nameCellAt, cellAt, isBlankName, pyStrip, stripChars])
    (by simp [isBlankName, pyStrip, stripChars])

/-- C8: in every run that writes output, the number of output rows equals
the number of distinct sanitized teacher names across all sheets. -/
theorem C8_row_count_distinct_names (wb : Workbook) (rows : List RankingRow)
    (hrun : create_teacher_ranking_excel (.ok wb) = .success rows) :
    rows.length = (allSheetNames wb).toFinset.card := by
  rcases success_inv wb rows hrun with ⟨m, avgs, hm, _, htas, hrows⟩
  subst hrows
  rw [rating_df, length_rankFrom, length_sortDesc, teacher_avg_scores_length m avgs htas]
  have hnd := nodup_keys_processSheets wb [] m (by simp) hm
  have hkeys := keys_toFinset_processSheets wb [] m hm
  simp only [List.map_nil, List.toFinset_nil, Finset.empty_union] at hkeys
  rw [← hkeys, List.toFinset_card_of_nodup hnd, List.length_map]

/-- Witness for C8 at the spec's example workbook. -/
theorem C8_row_count_distinct_names_witness :
    [(⟨CellVal.text "Bob", 9, 1⟩ : RankingRow), ⟨CellVal.text "Alice", 6, 2⟩].length =
      (allSheetNames wbPair).toFinset.card :=
  C8_row_count_distinct_names wbPair
    [⟨CellVal.text "Bob", 9, 1⟩, ⟨CellVal.text "Alice", 6, 2⟩]
    (by
      simp [wbPair, create_teacher_ranking_excel, processSheets, processSheet,
        cleaned_teacher_names, ncols, cleanedNameAt, nameCellAt, cellAt, sanitizeName,
        isBlankName, pyStrip, stripChars, current_teacher_scores, addScores, sheetEmpty,
        List.range_succ, teacher_avg_scores, teacherMean, numsOf, rating_df, sortDesc, insertDesc]
      norm_num [rankFrom])

/-- C10: two sheets whose row-0 name is blank at the same column index
get the identical placeholder key there, and a run over both sheets
merges their scores into the single entry under that key. -/
theorem C10_blank_columns_merge (s1 s2 : Sheet) (i : Nat)
    (m : List (CellVal × List CellVal))
    (hb1 : isBlankName (nameCellAt s1 i) = true)
    (hb2 : isBlankName (nameCellAt s2 i) = true)
    (hi1 : i < ncols s1) (hi2 : i < ncols s2)
    (hok : processSheets [s1, s2] [] = .ok m) :
    cleanedNameAt s1 i = cleanedNameAt s2 i ∧
    lookupS m (placeholder i) =
      some (sheetContrib s1 (placeholder i) ++ sheetContrib s2 (placeholder i)) := by
  have h1 := cleanedNameAt_blank s1 i hb1
  have h2 := cleanedNameAt_blank s2 i hb2
  refine ⟨h1.trans h2.symm, ?_⟩
  have hse1 : sheetEmpty s1 = false :=
    sheetEmpty_eq_false s1 (Nat.lt_of_le_of_lt (Nat.zero_le i) hi1)
  have hse2 : sheetEmpty s2 = false :=
    sheetEmpty_eq_false s2 (Nat.lt_of_le_of_lt (Nat.zero_le i) hi2)
  have hmemname : placeholder i ∈ cleaned_teacher_names s1 := by
    rw [← h1]
    exact cleanedNameAt_mem_cleaned s1 i hi1
  have hkeys := keys_toFinset_processSheets [s1, s2] [] m hok
  have hmemkeys : placeholder i ∈ m.map Prod.fst := by
    have hmem2 : placeholder i ∈ (allSheetNames [s1, s2]).toFinset := by
      simp only [allSheetNames, hse1, hse2, if_false, List.append_nil, List.toFinset_append,
        Finset.mem_union, List.mem_toFinset]
      exact Or.inl hmemname
    have h4 : placeholder i ∈ (m.map Prod.fst).toFinset := by
      rw [hkeys]
      simp only [List.map_nil, List.toFinset_nil, Finset.empty_union]
      exact hmem2
    exact List.mem_toFinset.mp h4
  have hl := lookupS_eq_some_of_mem_keys m (placeholder i) hmemkeys
  have hv := valueOf_processSheets [s1, s2] [] m (placeholder i) hok
  rw [hl, hv]
  simp [valueOf, lookupS, wbContrib, hse1, hse2]

/-- Witness for C10: `sheetBlankA` and `sheetBlankB` are both blank at
column 0, and their columns 0 end up merged. -/
theorem C10_blank_columns_merge_witness :
    cleanedNameAt sheetBlankA 0 = cleanedNameAt sheetBlankB 0 ∧
    lookupS [(CellVal.text "Unnamed_Teacher_0", [CellVal.num 3, CellVal.num 5]),
        (CellVal.text "X", [CellVal.num 4])] (placeholder 0) =
      some (sheetContrib sheetBlankA (placeholder 0) ++
        sheetContrib sheetBlankB (placeholder 0)) :=
  C10_blank_columns_merge sheetBlankA sheetBlankB 0
    [(CellVal.text "Unnamed_Teacher_0", [CellVal.num 3, CellVal.num 5]),
     (CellVal.text "X", [CellVal.num 4])]
    (by simp [sheetBlankA, nameCellAt, cellAt, isBlankName])
    (by simp [sheetBlankB, nameCellAt, cellAt, isBlankName, pyStrip, stripChars])
    (by simp [sheetBlankA, ncols])
    (by simp [sheetBlankB, ncols])
    (by
      have hp : placeholder 0 = CellVal.text "Unnamed_Teacher_0" := by decide
      simp [sheetBlankA, sheetBlankB, processSheets, processSheet, cleaned_teacher_names,
        ncols, cleanedNameAt, nameCellAt, cellAt, sanitizeName, isBlankName, pyStrip, stripChars,
        current_teacher_scores, addScores, sheetEmpty, List.range_succ, hp])

/-- Witness for C7 at a missing input file. -/
theorem C7_read_error_failure_witness :
    create_teacher_ranking_excel (.error ReadErr.fileNotFound) = .failure :=
  C7_read_error_failure ReadErr.fileNotFound
